import Mathlib

/-!
Verification of the parallel file-indexing pipeline (index_files.py).

The definitions below are a shallow embedding of the program:
`scanEntries`/`scanDir` embed `scan_dir`, `workerIteration` embeds one
iteration of `worker_task`, `writerEvents` embeds the message loop of
`async_writer`, `insertRecord`/`insertMany` embed the conflict-tolerant
bulk insert (`INSERT ... ON CONFLICT (object_id) DO NOTHING`),
`prepareTable` embeds `prepare_table`, `coordEvents` embeds the step
order of `traverse_parallel`, and `parseArgs`/`mainModel` embed
`parse_args`/`main`.  Python regular-expression search is abstracted as
a function from a filename to the optionally matched substring.
-/

namespace IndexFiles

/-- Kind of a directory entry as seen by `os.scandir`.  `symlinkToFile`
and `symlinkToDir` are symbolic links whose target is a regular file or
a directory; `other` covers sockets, fifos, broken links, and so on. -/
inductive EntryKind
  | file
  | dir
  | symlinkToFile
  | symlinkToDir
  | other
deriving DecidableEq

/-- One entry returned by listing a directory: `name` is the base name
(`entry.name`), `path` the full path (`entry.path`). -/
structure Entry where
  name : String
  path : String
  kind : EntryKind
deriving DecidableEq

/-- `entry.is_file()` with its default `follow_symlinks=True`: true for a
regular file and for a symlink whose target is a regular file. -/
def Entry.isFile (e : Entry) : Bool :=
  match e.kind with
  | EntryKind.file => true
  | EntryKind.symlinkToFile => true
  | _ => false

/-- `entry.is_dir(follow_symlinks=False)`: true only for a real
directory, never for a symlink. -/
def Entry.isDirNoFollow (e : Entry) : Bool :=
  match e.kind with
  | EntryKind.dir => true
  | _ => false

/-- The tuple `(object_id, full_filename, full_path, root_path)` built by
`scan_dir` and inserted by the writer. -/
structure FileRecord where
  objectId : String
  filename : String
  fullPath : String
  rootPath : String
deriving DecidableEq

/-- Errors `os.scandir` can raise; `scan_dir` catches exactly the first
two kinds. -/
inductive OSErr
  | permissionError
  | fileNotFoundError
  | otherError
deriving DecidableEq

/-- Abstraction of `re.search(filename_regex, s)`: `none` when there is
no match, otherwise `some m` where `m` is `match.group(0)`, the whole
text of the first (leftmost) match. -/
abbrev Pattern := String → Option String

/-- The entry loop of `scan_dir`: partition listed entries into file
records and subdirectory paths.  A file entry yields a record whose
`object_id` is the bare filename when no pattern is configured, or the
matched substring when the pattern matches; a file whose name does not
match a configured pattern is skipped.  A non-symlink directory entry
contributes its path to the subdirectory list. -/
def scanEntries (root : String) (pat : Option Pattern) :
    List Entry → List FileRecord × List String
  | [] => ([], [])
  | e :: rest =>
    let acc := scanEntries root pat rest
    if e.isFile then
      match pat with
      | none => (⟨e.name, e.name, e.path, root⟩ :: acc.1, acc.2)
      | some p =>
        match p e.name with
        | some m => (⟨m, e.name, e.path, root⟩ :: acc.1, acc.2)
        | none => acc
    else if e.isDirNoFollow then (acc.1, e.path :: acc.2)
    else acc

/-- Result of listing one directory: either its entries or the error the
listing raised. -/
abbrev Listing := Except OSErr (List Entry)

/-- `scan_dir` including its `except (PermissionError, FileNotFoundError)`
handler: those two errors yield `([], [])`; any other error propagates. -/
def scanDir (listing : Listing) (root : String) (pat : Option Pattern) :
    Except OSErr (List FileRecord × List String) :=
  match listing with
  | Except.error OSErr.permissionError => Except.ok ([], [])
  | Except.error OSErr.fileNotFoundError => Except.ok ([], [])
  | Except.error e => Except.error e
  | Except.ok entries => Except.ok (scanEntries root pat entries)

/-- A filesystem assigns to every path the outcome of listing it. -/
abbrev Filesystem := String → Listing

/-- Sequential model of the self-expanding traversal: repeatedly take a
pending directory, scan it, collect its records, and append its
subdirectories to the worklist.  `fuel` bounds the number of steps; a
directory whose scan raises an uncaught error contributes nothing, which
matches the effect of the worker dying before publishing or enqueueing. -/
def traverse (fs : Filesystem) (root : String) (pat : Option Pattern) :
    Nat → List String → List FileRecord
  | 0, _ => []
  | _, [] => []
  | fuel + 1, p :: rest =>
    match scanDir (fs p) root pat with
    | Except.ok (rs, ds) => rs ++ traverse fs root pat fuel (rest ++ ds)
    | Except.error _ => traverse fs root pat fuel rest

/-- Outcome of `task_queue.get(timeout=5)` in `worker_task`: an actual
directory path, the `None` stop sentinel, or the `Empty` timeout. -/
inductive DequeueResult
  | item (path : String)
  | sentinel
  | timeoutEmpty
deriving DecidableEq

/-- Externally visible actions of one iteration of the worker loop. -/
inductive WorkerEvent
  | publishFiles (records : List FileRecord)
  | enqueueSub (path : String)
  | markDone
  | exitLoop
deriving DecidableEq

/-- One iteration of the `while True` loop of `worker_task`, given the
dequeue outcome and the scan function.  On an item the worker scans,
publishes the `files` message, enqueues every subdirectory, and then the
`finally` clause calls `task_done`.  On the `None` sentinel it breaks
out, the `finally` clause still calling `task_done`.  On an `Empty`
timeout the handler runs `continue` — and the `finally` clause runs
`task_done` on this path as well. -/
def workerIteration (dq : DequeueResult)
    (scan : String → List FileRecord × List String) : List WorkerEvent :=
  match dq with
  | DequeueResult.item p =>
    WorkerEvent.publishFiles (scan p).1 ::
      ((scan p).2.map WorkerEvent.enqueueSub ++ [WorkerEvent.markDone])
  | DequeueResult.sentinel => [WorkerEvent.markDone, WorkerEvent.exitLoop]
  | DequeueResult.timeoutEmpty => [WorkerEvent.markDone]

/-- `INSERT_BATCH_SIZE` from the source. -/
def INSERT_BATCH_SIZE : Nat := 1000

/-- One row insert with `ON CONFLICT (object_id) DO NOTHING`: if some row
already holds the key, the table is unchanged; otherwise the record is
appended. -/
def insertRecord (t : List FileRecord) (r : FileRecord) : List FileRecord :=
  if ∃ row ∈ t, row.objectId = r.objectId then t else t ++ [r]

/-- `conn.executemany(insert_query, rs)`: the rows are inserted one after
the other, each with the conflict clause. -/
def insertMany (t : List FileRecord) (rs : List FileRecord) : List FileRecord :=
  rs.foldl insertRecord t

/-- `prepare_table`: with `drop_existing` the table is dropped and
recreated empty; otherwise `CREATE TABLE IF NOT EXISTS` keeps an existing
table (`some t`) unchanged and creates an empty one when absent. -/
def prepareTable (existing : Option (List FileRecord)) (dropExisting : Bool) :
    List FileRecord :=
  if dropExisting then [] else existing.getD []

/-- A message drawn from the result queue by `async_writer`:
a `('files', data)` batch, the `('done', None)` sentinel, or the `Empty`
timeout of `result_queue.get(True, 10)`. -/
inductive WriterMsg
  | files (data : List FileRecord)
  | done
  | timeoutEmpty
deriving DecidableEq

/-- Observable actions of the writer. -/
inductive WriterEvent
  | prepareStorage
  | flush (batch : List FileRecord)
  | terminate
deriving DecidableEq

/-- The message loop of `async_writer`, starting from buffer `buf`:
a timeout is retried; a `files` batch is appended to the buffer, and when
the buffer length reaches `INSERT_BATCH_SIZE` the whole buffer is flushed
in one bulk insert and cleared; the `done` message flushes the non-empty
remainder and terminates. -/
def writerEvents : List WriterMsg → List FileRecord → List WriterEvent
  | [], _ => []
  | WriterMsg.timeoutEmpty :: rest, buf => writerEvents rest buf
  | WriterMsg.done :: _, buf =>
    (if buf.isEmpty then [] else [WriterEvent.flush buf]) ++ [WriterEvent.terminate]
  | WriterMsg.files d :: rest, buf =>
    let b := buf ++ d
    if INSERT_BATCH_SIZE ≤ b.length then
      WriterEvent.flush b :: writerEvents rest []
    else
      writerEvents rest b

/-- Full trace of `async_writer`: it connects and prepares the table
before consuming any message, then runs the message loop with an empty
buffer. -/
def asyncWriterTrace (msgs : List WriterMsg) : List WriterEvent :=
  WriterEvent.prepareStorage :: writerEvents msgs []

/-- Projection of a writer event onto the flushed batch, if any. -/
def flushOf : WriterEvent → Option (List FileRecord)
  | WriterEvent.flush b => some b
  | _ => none

/-- The batches flushed by a complete writer run. -/
def flushBatches (msgs : List WriterMsg) : List (List FileRecord) :=
  (writerEvents msgs []).filterMap flushOf

/-- The records of all `files` messages received before the first `done`
sentinel — exactly the records the loop buffers. -/
def recordsBeforeDone : List WriterMsg → List FileRecord
  | [] => []
  | WriterMsg.done :: _ => []
  | WriterMsg.files d :: rest => d ++ recordsBeforeDone rest
  | WriterMsg.timeoutEmpty :: rest => recordsBeforeDone rest

/-- Lifecycle steps observable in `traverse_parallel` and the writer. -/
inductive Event
  | prepareStorage
  | enqueueRoot
  | startWriter
  | startWorkers
  | joinQueue
  | putSentinel
  | waitWorkers
  | sendDone
  | waitWriter
deriving DecidableEq

/-- The step order of `traverse_parallel` with `n` workers: enqueue the
root, start the writer process, start the workers, block on
`task_queue.join()`, put one `None` sentinel per worker, join the
workers, send `('done', None)`, join the writer.  Storage preparation is
not a coordinator step: it happens inside the writer process. -/
def coordEvents (n : Nat) : List Event :=
  [Event.enqueueRoot, Event.startWriter, Event.startWorkers, Event.joinQueue]
    ++ List.replicate n Event.putSentinel
    ++ [Event.waitWorkers, Event.sendDone, Event.waitWriter]

/-- The coordinator sequence as the spec words it (for comparison with
`coordEvents`): prepare storage first, then enqueue the root. -/
def specCoordEvents (n : Nat) : List Event :=
  [Event.prepareStorage, Event.enqueueRoot, Event.startWriter,
    Event.startWorkers, Event.joinQueue]
    ++ List.replicate n Event.putSentinel
    ++ [Event.waitWorkers, Event.sendDone, Event.waitWriter]

/-- The command-line options as supplied on `argv`: `none` means the
option was not given. -/
structure CmdLine where
  root : Option String
  dbName : Option String
  dbUser : Option String
  dbPassword : Option String
  dbHost : Option String
  dbPort : Option Nat
  dropExisting : Bool
  filenameRegex : Option String
  config : Option String
deriving DecidableEq

/-- The parsed argument namespace produced by `parse_args`. -/
structure Args where
  root : String
  dbName : String
  dbUser : String
  dbPassword : String
  dbHost : String
  dbPort : Nat
  dropExisting : Bool
  filenameRegex : Option String
  config : Option String
deriving DecidableEq

/-- `parse_args`: `--root` is declared `required=True`, so argparse
aborts with exit status 2 when it is absent; otherwise every other
option falls back to its declared default. -/
def parseArgs (c : CmdLine) : Except Nat Args :=
  match c.root with
  | none => Except.error 2
  | some r =>
    Except.ok ⟨r, c.dbName.getD "filedb", c.dbUser.getD "postgres",
      c.dbPassword.getD "", c.dbHost.getD "localhost", c.dbPort.getD 5432,
      c.dropExisting, c.filenameRegex, c.config⟩

/-- The recognized fields of a JSON config file; `none` means the key is
absent.  Keys that are not attributes of the argument namespace fail the
`hasattr` test and are ignored, so they need no representation. -/
structure ConfigData where
  root : Option String
  dbName : Option String
  dbUser : Option String
  dbPassword : Option String
  dbHost : Option String
  dbPort : Option Nat
  dropExisting : Option Bool
  filenameRegex : Option String
deriving DecidableEq

/-- The override loop of `main`: every recognized key present in the
config file replaces the corresponding parsed value. -/
def applyConfig (a : Args) (cfg : ConfigData) : Args :=
  ⟨cfg.root.getD a.root, cfg.dbName.getD a.dbName, cfg.dbUser.getD a.dbUser,
    cfg.dbPassword.getD a.dbPassword, cfg.dbHost.getD a.dbHost,
    cfg.dbPort.getD a.dbPort, cfg.dropExisting.getD a.dropExisting,
    (cfg.filenameRegex.map some).getD a.filenameRegex, a.config⟩

/-- Contents of the config file at each path. -/
abbrev ConfigSource := String → ConfigData

/-- `main` up to the construction of `db_config`: parse the arguments
first; only afterwards, and only when `--config` was given, open and
apply the config file.  The boolean records whether the config file was
opened. -/
def mainModel (c : CmdLine) (readConfig : ConfigSource) :
    Except Nat (Bool × Args) :=
  match parseArgs c with
  | Except.error code => Except.error code
  | Except.ok args =>
    match args.config with
    | none => Except.ok (false, args)
    | some path => Except.ok (true, applyConfig args (readConfig path))

/-- Whether a filename ends with the four characters `.txt`. -/
def endsWithTxt (s : String) : Bool :=
  decide (s.data.reverse.take 4 = ['t', 'x', 't', '.'])

/-- The concrete extraction pattern `\.txt$` of the pattern-filtering
scenario: `re.search` succeeds exactly on names ending in `.txt`, and
`match.group(0)` is then the suffix `.txt` itself. -/
def txtDollar : Pattern := fun s =>
  if endsWithTxt s then some ".txt" else none

/-- The input tree of the pattern-filtering scenario: files `a.txt` and
`b.log` and directory `sub` under the root, file `c.txt` inside `sub`. -/
def c2fs : Filesystem := fun p =>
  if p = "/root" then
    Except.ok [⟨"a.txt", "/root/a.txt", EntryKind.file⟩,
      ⟨"b.log", "/root/b.log", EntryKind.file⟩,
      ⟨"sub", "/root/sub", EntryKind.dir⟩]
  else if p = "/root/sub" then
    Except.ok [⟨"c.txt", "/root/sub/c.txt", EntryKind.file⟩]
  else Except.error OSErr.fileNotFoundError

/-- All records published while traversing the scenario tree with the
pattern `\.txt$`. -/
def c2Records : List FileRecord :=
  traverse c2fs "/root" (some txtDollar) 4 ["/root"]

/-- The final index of the scenario run: the published records inserted
into an initially empty table with the conflict-tolerant insert. -/
def c2Index : List FileRecord := insertMany [] c2Records

/-! Helper lemmas about the conflict-tolerant insert. -/

theorem mem_insertRecord_of_mem {t : List FileRecord} {r x : FileRecord}
    (hx : x ∈ t) : x ∈ insertRecord t r := by
  unfold insertRecord
  split
  · exact hx
  · exact List.mem_append_left _ hx

theorem mem_insertMany_of_mem {rs t : List FileRecord} {x : FileRecord}
    (hx : x ∈ t) : x ∈ insertMany t rs := by
  induction rs generalizing t with
  | nil => exact hx
  | cons a rs ih => exact ih (mem_insertRecord_of_mem hx)

theorem insertMany_cons (t : List FileRecord) (a : FileRecord)
    (rs : List FileRecord) :
    insertMany t (a :: rs) = insertMany (insertRecord t a) rs := rfl

theorem key_present_insertRecord (t : List FileRecord) (r : FileRecord) :
    ∃ row ∈ insertRecord t r, row.objectId = r.objectId := by
  unfold insertRecord
  by_cases h : ∃ row ∈ t, row.objectId = r.objectId
  · rw [if_pos h]
    exact h
  · rw [if_neg h]
    exact ⟨r, List.mem_append_right _ (by simp), rfl⟩

theorem key_present_insertMany {rs : List FileRecord} {r : FileRecord}
    (t : List FileRecord) (hr : r ∈ rs) :
    ∃ row ∈ insertMany t rs, row.objectId = r.objectId := by
  induction rs generalizing t with
  | nil => cases hr
  | cons a rs ih =>
    rw [insertMany_cons]
    rcases List.mem_cons.mp hr with h | h
    · subst h
      obtain ⟨row, hm, hk⟩ := key_present_insertRecord t r
      exact ⟨row, mem_insertMany_of_mem hm, hk⟩
    · exact ih _ h

theorem insertRecord_of_key_present {t : List FileRecord} {r : FileRecord}
    (h : ∃ row ∈ t, row.objectId = r.objectId) : insertRecord t r = t := by
  unfold insertRecord
  exact if_pos h

theorem insertMany_of_keys_present {rs t : List FileRecord}
    (h : ∀ r ∈ rs, ∃ row ∈ t, row.objectId = r.objectId) :
    insertMany t rs = t := by
  induction rs with
  | nil => rfl
  | cons a rs ih =>
    rw [insertMany_cons, insertRecord_of_key_present (h a (by simp))]
    exact ih fun r hr => h r (List.mem_cons_of_mem _ hr)

theorem nodup_insertRecord {t : List FileRecord} {r : FileRecord}
    (h : (t.map FileRecord.objectId).Nodup) :
    ((insertRecord t r).map FileRecord.objectId).Nodup := by
  unfold insertRecord
  by_cases hk : ∃ row ∈ t, row.objectId = r.objectId
  · rw [if_pos hk]
    exact h
  · rw [if_neg hk, List.map_append]
    refine List.Nodup.append h (List.nodup_singleton _) ?_
    intro a ha hb
    simp only [List.map_cons, List.map_nil, List.mem_singleton] at hb
    subst hb
    rcases List.mem_map.mp ha with ⟨row, hrow, hid⟩
    exact hk ⟨row, hrow, hid⟩

/-! Helper lemmas about the writer loop. -/

theorem done_of_mem_cons {m : WriterMsg} {rest : List WriterMsg}
    (h : WriterMsg.done ∈ m :: rest) (hm : m ≠ WriterMsg.done) :
    WriterMsg.done ∈ rest := by
  rcases List.mem_cons.mp h with h1 | h1
  · exact absurd h1.symm hm
  · exact h1

theorem writer_flushes_append (msgs : List WriterMsg) (buf : List FileRecord)
    (h : WriterMsg.done ∈ msgs) :
    ((writerEvents msgs buf).filterMap flushOf).flatten =
      buf ++ recordsBeforeDone msgs := by
  induction msgs generalizing buf with
  | nil => cases h
  | cons m rest ih =>
    cases m with
    | timeoutEmpty =>
      have h2 := done_of_mem_cons h (by simp)
      simp only [writerEvents, recordsBeforeDone]
      exact ih buf h2
    | done =>
      by_cases hb : buf.isEmpty
      · simp [writerEvents, hb, recordsBeforeDone, flushOf,
          List.isEmpty_iff.mp hb]
      · simp [writerEvents, hb, recordsBeforeDone, flushOf]
    | files d =>
      have h2 := done_of_mem_cons h (by simp)
      by_cases hlen : INSERT_BATCH_SIZE ≤ (buf ++ d).length
      · simp only [writerEvents, hlen, if_true, List.filterMap_cons, flushOf,
          List.flatten_cons, ih [] h2, recordsBeforeDone]
        simp [List.append_assoc]
      · simp only [writerEvents, hlen, if_false, recordsBeforeDone,
          ih (buf ++ d) h2]
        simp [List.append_assoc]

/-! Sample data used by concrete witnesses. -/

/-- A sample record with key `k`. -/
def rowA : FileRecord := ⟨"k", "a", "/r/a", "/r"⟩

/-- A second sample record with the same key `k`. -/
def rowB : FileRecord := ⟨"k", "b", "/r/b", "/r"⟩

/-- A sample writer message sequence ending in the `done` sentinel. -/
def c5msgs : List WriterMsg :=
  [WriterMsg.files [rowA], WriterMsg.timeoutEmpty, WriterMsg.done]

/-- A sample directory entry that is a symlink to a regular file. -/
def linkEntry : Entry := ⟨"ln.txt", "/r/ln.txt", EntryKind.symlinkToFile⟩

/-- A command line that omits `--root` but names a config file. -/
def noRootCmd : CmdLine :=
  ⟨none, none, none, none, none, none, false, none, some "/cfg.json"⟩

/-- A config file whose only recognized key is `root`. -/
def rootOnlyCfg : ConfigData :=
  ⟨some "/data", none, none, none, none, none, none, none⟩

/-! The claims. -/

/-- Claim C1: the claim states that `task_done` is called exactly once per
dequeued task and never on a dequeue attempt that timed out empty.  The
code violates this: `task_done` sits in a `finally` clause of the worker
loop, so the `Empty` timeout path also calls it, decrementing the
unfinished count with no task dequeued.  This theorem evaluates the
worker iteration at the failing input (an `Empty` timeout) and shows the
spurious `markDone`; the second conjunct shows the intended
publish-then-enqueue-then-mark order on the normal path. -/
theorem worker_timeout_empty_marks_done :
    workerIteration DequeueResult.timeoutEmpty (fun _ => ([], [])) =
      [WorkerEvent.markDone] ∧
    workerIteration (DequeueResult.item "/r") (fun _ => ([], ["/r/s"])) =
      [WorkerEvent.publishFiles [], WorkerEvent.enqueueSub "/r/s",
        WorkerEvent.markDone] :=
  ⟨rfl, rfl⟩

/-- Claim C2, counterexample: with the pattern `\.txt$` the extracted
`object_id` is the matched substring `.txt`, not the filename, so the
final index does not contain the keys `a.txt` and `c.txt` the claim
names. -/
theorem c2_object_ids_counterexample :
    c2Index.map FileRecord.objectId = [".txt"] ∧
    "a.txt" ∉ c2Index.map FileRecord.objectId ∧
    "c.txt" ∉ c2Index.map FileRecord.objectId := by
  decide

/-- Claim C2, amended: for the tree `a.txt`, `b.log`, `sub/c.txt` run with
the pattern `\.txt$`, both matching files extract the same `object_id`
`.txt`, so the final index holds exactly one row, keyed `.txt`, and no
entry derived from `b.log`. -/
theorem c2_index_amended :
    c2Index = [⟨".txt", "a.txt", "/root/a.txt", "/root"⟩] ∧
    c2Index.all (fun row => row.filename != "b.log") = true := by
  decide

/-- Claim C3: for a scanned file entry, `object_id` is the bare filename
when no pattern is configured; with a pattern it is the matched substring
returned by the search on the first match; and on no match the file
yields no record at all. -/
theorem scan_object_id_rule (e : Entry) (rest : List Entry) (root : String)
    (p : Pattern) (h : e.isFile = true) :
    scanEntries root none (e :: rest) =
      (⟨e.name, e.name, e.path, root⟩ :: (scanEntries root none rest).1,
        (scanEntries root none rest).2) ∧
    (∀ m, p e.name = some m →
      scanEntries root (some p) (e :: rest) =
        (⟨m, e.name, e.path, root⟩ :: (scanEntries root (some p) rest).1,
          (scanEntries root (some p) rest).2)) ∧
    (p e.name = none →
      scanEntries root (some p) (e :: rest) = scanEntries root (some p) rest) := by
  refine ⟨?_, ?_, ?_⟩
  · simp [scanEntries, h]
  · intro m hm
    simp [scanEntries, h, hm]
  · intro hm
    simp [scanEntries, h, hm]

/-- Witness for C3 at a concrete file entry, no pattern configured. -/
theorem scan_object_id_rule_witness :
    (Entry.mk "a.txt" "/r/a.txt" EntryKind.file).isFile = true ∧
    scanEntries "/r" none [Entry.mk "a.txt" "/r/a.txt" EntryKind.file] =
      ([⟨"a.txt", "a.txt", "/r/a.txt", "/r"⟩], []) :=
  ⟨rfl, (scan_object_id_rule ⟨"a.txt", "/r/a.txt", EntryKind.file⟩ [] "/r"
    txtDollar rfl).1⟩

/-- Claim C4: the conflict-tolerant insert keeps at most one row per
`object_id` — it preserves key uniqueness, a colliding key is never left
absent, on a collision the existing row wins and the table is unchanged,
and a fresh key is appended. -/
theorem index_key_unique (t : List FileRecord) (r : FileRecord)
    (h : (t.map FileRecord.objectId).Nodup) :
    ((insertRecord t r).map FileRecord.objectId).Nodup ∧
    (∃ row ∈ insertRecord t r, row.objectId = r.objectId) ∧
    ((∃ row ∈ t, row.objectId = r.objectId) → insertRecord t r = t) ∧
    (¬(∃ row ∈ t, row.objectId = r.objectId) → insertRecord t r = t ++ [r]) :=
  ⟨nodup_insertRecord h, key_present_insertRecord t r,
    fun hk => insertRecord_of_key_present hk,
    fun hk => by unfold insertRecord; exact if_neg hk⟩

/-- Witness for C4 at a concrete collision: inserting a second record
with the key already present keeps the key set duplicate-free. -/
theorem index_key_unique_witness :
    ([rowA].map FileRecord.objectId).Nodup ∧
    ((insertRecord [rowA] rowB).map FileRecord.objectId).Nodup :=
  ⟨by decide, (index_key_unique [rowA] rowB (by decide)).1⟩

/-- Claim C5: over a message sequence containing the `done` sentinel, the
flushed batches concatenate to exactly the records received before
`done` — every buffered record is written exactly once; a `files` batch
that brings the buffer to the `INSERT_BATCH_SIZE` threshold of 1000
triggers one bulk flush of the whole buffer followed by an empty buffer,
a batch below the threshold only grows the buffer, and the `done`
message flushes the non-empty remainder and terminates. -/
theorem writer_flush_conservation (msgs : List WriterMsg)
    (h : WriterMsg.done ∈ msgs) :
    (flushBatches msgs).flatten = recordsBeforeDone msgs ∧
    (∀ buf d rest, INSERT_BATCH_SIZE ≤ buf.length + d.length →
      writerEvents (WriterMsg.files d :: rest) buf =
        WriterEvent.flush (buf ++ d) :: writerEvents rest []) ∧
    (∀ buf d rest, buf.length + d.length < INSERT_BATCH_SIZE →
      writerEvents (WriterMsg.files d :: rest) buf =
        writerEvents rest (buf ++ d)) ∧
    (∀ buf rest, writerEvents (WriterMsg.done :: rest) buf =
      (if buf.isEmpty then [] else [WriterEvent.flush buf]) ++
        [WriterEvent.terminate]) := by
  refine ⟨?_, ?_, ?_, fun buf rest => rfl⟩
  · simpa [flushBatches] using writer_flushes_append msgs [] h
  · intro buf d rest hlen
    simp [writerEvents, hlen]
  · intro buf d rest hlen
    have hc : ¬ INSERT_BATCH_SIZE ≤ buf.length + d.length :=
      Nat.not_le.mpr hlen
    simp [writerEvents, hc]

/-- Witness for C5 on a concrete message sequence. -/
theorem writer_flush_conservation_witness :
    WriterMsg.done ∈ c5msgs ∧
    (flushBatches c5msgs).flatten = recordsBeforeDone c5msgs :=
  ⟨by decide, (writer_flush_conservation c5msgs (by decide)).1⟩

/-- Claim C6: a permission or not-found error while listing a directory
is caught and yields exactly `([], [])` instead of propagating, and the
traversal of the remaining pending directories continues exactly as if
the failed directory contributed nothing. -/
theorem scan_error_yields_empty (fs : Filesystem) (p root : String)
    (pat : Option Pattern) (rest : List String) (fuel : Nat)
    (h : fs p = Except.error OSErr.permissionError ∨
      fs p = Except.error OSErr.fileNotFoundError) :
    scanDir (fs p) root pat = Except.ok ([], []) ∧
    traverse fs root pat (fuel + 1) (p :: rest) =
      traverse fs root pat fuel rest := by
  have hs : scanDir (fs p) root pat = Except.ok ([], []) := by
    rcases h with h | h <;> rw [h] <;> rfl
  refine ⟨hs, ?_⟩
  simp [traverse, hs]

/-- Witness for C6 at a concrete path whose listing raises a not-found
error. -/
theorem scan_error_yields_empty_witness :
    (c2fs "/nope" = Except.error OSErr.permissionError ∨
      c2fs "/nope" = Except.error OSErr.fileNotFoundError) ∧
    scanDir (c2fs "/nope") "/root" none = Except.ok ([], []) :=
  ⟨Or.inr rfl,
    (scan_error_yields_empty c2fs "/nope" "/root" none [] 0 (Or.inr rfl)).1⟩

/-- Claim C7: a second run over an unchanged tree without the
drop-existing flag is a no-op on the table.  `prepareTable` without the
flag keeps the existing table; every record of the second run has its
key among the keys inserted by the first run (the hypothesis covers any
re-ordering of the same records by the nondeterministic workers), so all
its inserts hit the conflict clause and the table is unchanged. -/
theorem pipeline_idempotent (t0 : Option (List FileRecord))
    (rs rs' : List FileRecord)
    (h : ∀ r ∈ rs', ∃ r0 ∈ rs, r0.objectId = r.objectId) :
    insertMany
        (prepareTable (some (insertMany (prepareTable t0 false) rs)) false)
        rs' =
      insertMany (prepareTable t0 false) rs := by
  have hp : prepareTable (some (insertMany (prepareTable t0 false) rs)) false =
      insertMany (prepareTable t0 false) rs := rfl
  rw [hp]
  apply insertMany_of_keys_present
  intro r hr
  obtain ⟨r0, hr0, hk⟩ := h r hr
  obtain ⟨row, hrow, hrk⟩ := key_present_insertMany (prepareTable t0 false) hr0
  exact ⟨row, hrow, by rw [hrk, hk]⟩

/-- Witness for C7: running the same single-record batch twice from an
empty table leaves the table of the first run unchanged. -/
theorem pipeline_idempotent_witness :
    insertMany
        (prepareTable (some (insertMany (prepareTable none false) [rowA]))
          false)
        [rowA] =
      insertMany (prepareTable none false) [rowA] :=
  pipeline_idempotent none [rowA] [rowA] (by decide)

/-- Claim C8, counterexample: the coordinator step sequence of the code
differs from the one the claim states — its first step is enqueueing the
root task, and storage preparation is not a coordinator step at all (it
happens inside the writer process). -/
theorem coordinator_order_counterexample :
    coordEvents 2 ≠ specCoordEvents 2 ∧
    Event.prepareStorage ∉ coordEvents 2 ∧
    (specCoordEvents 2).head? = some Event.prepareStorage ∧
    (coordEvents 2).head? = some Event.enqueueRoot := by
  decide

/-- Claim C8, amended: the coordinator performs, for any worker count and
so also for an empty tree, exactly: enqueue the root task, start the
writer, start the worker pool, block on the task-queue join, send one
stop sentinel per worker, wait for the workers, send `done` to the
writer, wait for the writer; no stop sentinel occurs before the join
step; and storage preparation happens inside the writer, before it
consumes any message. -/
theorem coordinator_order_amended (n : Nat) (msgs : List WriterMsg) :
    coordEvents n =
      [Event.enqueueRoot, Event.startWriter, Event.startWorkers,
          Event.joinQueue]
        ++ List.replicate n Event.putSentinel
        ++ [Event.waitWorkers, Event.sendDone, Event.waitWriter] ∧
    (coordEvents n).take 4 =
      [Event.enqueueRoot, Event.startWriter, Event.startWorkers,
        Event.joinQueue] ∧
    Event.putSentinel ∉ (coordEvents n).take 4 ∧
    (asyncWriterTrace msgs).head? = some WriterEvent.prepareStorage := by
  have h2 : (coordEvents n).take 4 =
      [Event.enqueueRoot, Event.startWriter, Event.startWorkers,
        Event.joinQueue] := rfl
  refine ⟨rfl, h2, ?_, rfl⟩
  rw [h2]
  decide

/-- Claim C9: a symlink entry is never added to the subdirectory list,
because the directory test does not follow symlinks; but a symlink whose
target is a regular file passes the file test and yields a record (shown
here in no-pattern mode), while a symlink whose target is a directory is
skipped entirely. -/
theorem symlink_handling (e : Entry) (rest : List Entry) (root : String)
    (pat : Option Pattern)
    (h : e.kind = EntryKind.symlinkToFile ∨ e.kind = EntryKind.symlinkToDir) :
    (scanEntries root pat (e :: rest)).2 = (scanEntries root pat rest).2 ∧
    (e.kind = EntryKind.symlinkToFile → e.isFile = true ∧
      scanEntries root none (e :: rest) =
        (⟨e.name, e.name, e.path, root⟩ :: (scanEntries root none rest).1,
          (scanEntries root none rest).2)) ∧
    (e.kind = EntryKind.symlinkToDir →
      scanEntries root pat (e :: rest) = scanEntries root pat rest) := by
  rcases h with h | h
  · have hf : e.isFile = true := by simp [Entry.isFile, h]
    refine ⟨?_, fun _ => ⟨hf, by simp [scanEntries, hf]⟩, fun hd => ?_⟩
    · cases pat with
      | none => simp [scanEntries, hf]
      | some p =>
        cases hp : p e.name with
        | some m => simp [scanEntries, hf, hp]
        | none => simp [scanEntries, hf, hp]
    · rw [h] at hd
      exact absurd hd (by decide)
  · have hf : e.isFile = false := by simp [Entry.isFile, h]
    have hd : e.isDirNoFollow = false := by simp [Entry.isDirNoFollow, h]
    refine ⟨?_, fun hx => ?_, fun _ => ?_⟩
    · simp [scanEntries, hf, hd]
    · rw [h] at hx
      exact absurd hx (by decide)
    · simp [scanEntries, hf, hd]

/-- Witness for C9 at a concrete symlink-to-file entry. -/
theorem symlink_handling_witness :
    (linkEntry.kind = EntryKind.symlinkToFile ∨
      linkEntry.kind = EntryKind.symlinkToDir) ∧
    (scanEntries "/r" none [linkEntry]).2 = (scanEntries "/r" none []).2 :=
  ⟨Or.inl rfl, (symlink_handling linkEntry [] "/r" none (Or.inl rfl)).1⟩

/-- Claim C10: when `--root` is absent the run aborts during argument
parsing with exit status 2, whatever any config file contains — the file
is never opened, so a `root` given only there cannot satisfy the
requirement; and when parsing does succeed, a `root` key in the config
file replaces the command-line value. -/
theorem root_required_cli (c : CmdLine) (rc : ConfigSource)
    (h : c.root = none) :
    mainModel c rc = Except.error 2 ∧
    (∀ a cfg v, cfg.root = some v → (applyConfig a cfg).root = v) := by
  constructor
  · simp [mainModel, parseArgs, h]
  · intro a cfg v hv
    simp [applyConfig, hv]

/-- Witness for C10: a command line without `--root`, run against a
config file that does supply a root, still aborts with exit status 2. -/
theorem root_required_cli_witness :
    noRootCmd.root = none ∧
    mainModel noRootCmd (fun _ => rootOnlyCfg) = Except.error 2 :=
  ⟨rfl, (root_required_cli noRootCmd (fun _ => rootOnlyCfg) rfl).1⟩

end IndexFiles
